import Mathlib

/-!
Verification of the data-to-sequence transformation and prediction pipeline of
the Price-Prediction-System repository.

The embedding models, over exact rationals:
  * `utils/data_processor.py`: `prepare_data`, `create_sequences`,
    `validate_and_clean_data`;
  * sklearn's `MinMaxScaler` with `feature_range=(0, 1)`, as instantiated at
    `data_processor.py:44`;
  * `models/lstm_model.py`: `StockPredictor.predict_future` (the trained keras
    regressor is abstracted as a total function from a window to one scalar);
  * `routes/main.py`: `create_chart_data` and the forecast-length check of the
    `predict` route.

Float64 values are modelled by `FVal`: an exact rational payload plus the three
non-finite values NaN, +inf, -inf that the source tests for with `np.isnan` /
`np.isinf`.  Arithmetic on finite values is exact rational arithmetic.
-/

namespace StockPred

/-- A float64 cell as the source distinguishes them: NaN, +inf, -inf, or a
finite value (modelled exactly as a rational). -/
inductive FVal where
  | nan
  | posinf
  | neginf
  | fin (x : ℚ)
deriving DecidableEq

/-- `np.isnan` on one value. -/
def FVal.isnan : FVal → Bool
  | .nan => true
  | _ => false

/-- `np.isinf` on one value. -/
def FVal.isinf : FVal → Bool
  | .posinf => true
  | .neginf => true
  | _ => false

/-- A value is finite when it is neither NaN nor an infinity. -/
def FVal.isFinite : FVal → Bool
  | .fin _ => true
  | _ => false

/-- The rational payload of a finite value (0 for the non-finite values, which
never reach the call sites where this projection is used). -/
def FVal.toRat : FVal → ℚ
  | .fin x => x
  | _ => 0

/-- `np.finfo(np.float64).max` = (2^53 - 1) * 2^971, the largest finite
float64, as an exact rational. -/
def float64Max : ℚ := (2 ^ 53 - 1) * 2 ^ 971

/-- `np.nan_to_num(·, nan=0.0, posinf=np.finfo(np.float64).max, neginf=0.0)`
on one value (`data_processor.py:41`). -/
def nan_to_num : FVal → FVal
  | .nan => .fin 0
  | .posinf => .fin float64Max
  | .neginf => .fin 0
  | .fin x => .fin x

/-! ### sklearn `MinMaxScaler`

Model of `sklearn.preprocessing.MinMaxScaler` with `feature_range=(0, 1)` and
one feature column, as created at `data_processor.py:44`.  In sklearn,
`fit` stores `data_min_`/`data_max_` and sets
`scale_ = (1 - 0) / _handle_zeros_in_scale(data_max_ - data_min_)` and
`min_ = 0 - data_min_ * scale_`, where `_handle_zeros_in_scale` replaces a zero
range by 1 (the constant-series guard).  `transform X = X * scale_ + min_`
and `inverse_transform X = (X - min_) / scale_`. -/

structure MinMaxScaler where
  data_min : ℚ
  data_max : ℚ
deriving DecidableEq

/-- `_handle_zeros_in_scale(data_max - data_min)`: a zero range is replaced by
1 so that a constant series does not divide by zero. -/
def MinMaxScaler.handled_range (s : MinMaxScaler) : ℚ :=
  if s.data_max - s.data_min = 0 then 1 else s.data_max - s.data_min

/-- sklearn `scale_` for `feature_range=(0, 1)`. -/
def MinMaxScaler.scale_ (s : MinMaxScaler) : ℚ := 1 / s.handled_range

/-- sklearn `min_` for `feature_range=(0, 1)`. -/
def MinMaxScaler.min_ (s : MinMaxScaler) : ℚ := 0 - s.data_min * s.scale_

/-- sklearn `MinMaxScaler.transform` on one value. -/
def MinMaxScaler.transform (s : MinMaxScaler) (x : ℚ) : ℚ :=
  x * s.scale_ + s.min_

/-- sklearn `MinMaxScaler.inverse_transform` on one value. -/
def MinMaxScaler.inverse_transform (s : MinMaxScaler) (y : ℚ) : ℚ :=
  (y - s.min_) / s.scale_

/-- sklearn `MinMaxScaler.fit`: record the minimum and maximum of the fitted
column (the source always fits on a non-empty column; on `[]` this model fits
on a single 0). -/
def MinMaxScaler.fit (prices : List ℚ) : MinMaxScaler :=
  { data_min := prices.foldl min prices.headI
    data_max := prices.foldl max prices.headI }

/-! ### `create_sequences` (`data_processor.py:80-124`) -/

/-- `create_sequences(data, sequence_length)`: for `i` in
`range(sequence_length, len(data))` take `sequence = data[i-sequence_length:i]`
and `target = data[i]`, keeping the pair only when the sequence contains no NaN
and no infinity (`data_processor.py:100-107`); returns `([], [])` when
`len(data) <= sequence_length` (`data_processor.py:94-96`) and also when no
pair survives the filter (`data_processor.py:109-111`). -/
def create_sequences (data : List FVal) (sequence_length : ℕ) :
    List (List FVal) × List FVal :=
  if data.length ≤ sequence_length then ([], [])
  else
    let pairs := (List.range' sequence_length (data.length - sequence_length)).filterMap
      (fun i =>
        let sequence := (data.drop (i - sequence_length)).take sequence_length
        let target := data.getD i (.fin 0)
        if sequence.any FVal.isnan || sequence.any FVal.isinf then none
        else some (sequence, target))
    (pairs.map Prod.fst, pairs.map Prod.snd)

/-! ### `prepare_data` (`data_processor.py:6-78`) -/

/-- One row of the input DataFrame as `prepare_data` sees it: the `Close` cell,
plus a flag recording whether any other column of the row holds NaN (so that
`dropna()` drops the row). -/
structure PriceRow where
  close : FVal
  otherNA : Bool
deriving DecidableEq

/-- `stock_data.dropna()` (`data_processor.py:29`): drop every row holding NaN
in any column. -/
def dropnaRows (rows : List PriceRow) : List PriceRow :=
  rows.filter (fun r => !(r.otherNA || r.close.isnan))

/-- The rows remaining after `dropna()`; the row count checked against
`sequence_length + 10` at `data_processor.py:31`. -/
def cleanedOf (rows : List PriceRow) : List PriceRow := dropnaRows rows

/-- The extracted `Close` column (`data_processor.py:35`) after the
`np.nan_to_num` repair of `data_processor.py:39-41`, which runs only when some
NaN or infinity is present. -/
def cleanedPricesOf (rows : List PriceRow) : List FVal :=
  let prices := (cleanedOf rows).map (·.close)
  if prices.any FVal.isnan || prices.any FVal.isinf then prices.map nan_to_num
  else prices

/-- The price column as exact rationals (every entry is finite at this point,
so `FVal.toRat` loses nothing). -/
def pricesQOf (rows : List PriceRow) : List ℚ :=
  (cleanedPricesOf rows).map FVal.toRat

/-- The scaler fitted at `data_processor.py:44-45`. -/
def scalerOf (rows : List PriceRow) : MinMaxScaler :=
  MinMaxScaler.fit (pricesQOf rows)

/-- `scaled_data = scaler.fit_transform(prices)` (`data_processor.py:45`). -/
def scaledOf (rows : List PriceRow) : List FVal :=
  (pricesQOf rows).map (fun x => FVal.fin ((scalerOf rows).transform x))

/-- `train_size = max(1, int(len(X) * 0.8))` (`data_processor.py:56`).  In
float64, `int(n * 0.8)` equals `⌊4n/5⌋` for every row count `n` that a
DataFrame can reach: the rounding error of the literal `0.8` is upward and far
too small to carry the product across an integer boundary. -/
def train_size_of (n : ℕ) : ℕ := max 1 (4 * n / 5)

/-- The 80/20 positional split of `data_processor.py:56-60`:
`X[:train_size]` and `X[train_size:] if train_size < len(X) else []`. -/
def splitTrainTest {α : Type} (X : List α) : List α × List α :=
  (X.take (train_size_of X.length),
   if train_size_of X.length < X.length then X.drop (train_size_of X.length)
   else [])

/-- `last_sequence = scaled_data[-sequence_length:]` (`data_processor.py:66`).
A Python slice `[-S:]` with `S = 0` is the whole array. -/
def last_sequence_of (scaled : List FVal) (sequence_length : ℕ) : List FVal :=
  if sequence_length = 0 then scaled
  else scaled.drop (scaled.length - sequence_length)

/-- The `ValueError`s `prepare_data` can raise, identified by the check that
raises them.  All four report too little usable data: the empty-input check
(which §6 of the design maps to `InsufficientDataError`), the
`sequence_length + 10` row check, the empty-window-set check, and the
empty-training-set check. -/
inductive PrepError where
  | emptyInput
  | insufficientRows
  | noSequences
  | noTrainingData
deriving DecidableEq

/-- Every `prepare_data` error reports insufficient usable data (the spec's
`InsufficientDataError` family). -/
def PrepError.isInsufficient : PrepError → Bool
  | .emptyInput => true
  | .insufficientRows => true
  | .noSequences => true
  | .noTrainingData => true

/-- The tuple returned by `prepare_data` (`data_processor.py:74`). -/
structure PrepResult where
  X_train : List (List FVal)
  y_train : List FVal
  X_test : List (List FVal)
  scaler : MinMaxScaler
  last_sequence : List FVal
deriving DecidableEq

/-- `prepare_data(stock_data, sequence_length)` (`data_processor.py:6-78`):
validate input, `dropna`, check the `sequence_length + 10` row minimum,
extract and repair the price column, fit-transform the scaler, window, split
80/20, and slice the final window for forecasting. -/
def prepare_data (stock_data : List PriceRow) (sequence_length : ℕ) :
    Except PrepError PrepResult :=
  if stock_data.isEmpty then .error .emptyInput
  else if (cleanedOf stock_data).length < sequence_length + 10 then
    .error .insufficientRows
  else
    let scaled := scaledOf stock_data
    let Xy := create_sequences scaled sequence_length
    if Xy.1.isEmpty then .error .noSequences
    else
      let tt := splitTrainTest Xy.1
      if tt.1.isEmpty then .error .noTrainingData
      else
        .ok { X_train := tt.1
              y_train := Xy.2.take (train_size_of Xy.1.length)
              X_test := tt.2
              scaler := scalerOf stock_data
              last_sequence := last_sequence_of scaled sequence_length }

/-! ### `StockPredictor.predict_future` (`lstm_model.py:68-98`)

The trained keras regressor is abstracted as a total function
`model : List ℚ → ℚ` from one window (the buffer, reshaped to
`(1, sequence_length, 1)` at `lstm_model.py:86`) to the one normalized output
scalar `next_price_scaled[0, 0]`. -/

/-- The buffer-length adjustment at the head of each loop iteration
(`lstm_model.py:74-83`): a too-long buffer is cut to its last
`sequence_length` entries (Python `[-S:]`, the whole array when `S = 0`); a
too-short buffer is left-padded by repeating its first element
(`np.full(pad_length, current_sequence[0])`), which raises `IndexError`
(modelled as `none`) on an empty buffer. -/
def adjust_sequence (sequence_length : ℕ) (cur : List ℚ) : Option (List ℚ) :=
  if sequence_length < cur.length then
    some (if sequence_length = 0 then cur
          else cur.drop (cur.length - sequence_length))
  else if cur.length < sequence_length then
    match cur with
    | [] => none
    | h :: _ => some (List.replicate (sequence_length - cur.length) h ++ cur)
  else some cur

/-- The `for _ in range(days)` loop of `lstm_model.py:73-96`, carrying the
rolling buffer and the accumulated predictions: adjust the buffer, feed it to
the regressor, inverse-transform the output and append it to the predictions,
then slide the buffer (`np.append(current_sequence[1:], next_price_scaled)`,
`lstm_model.py:96`). -/
def predict_future_loop (model : List ℚ → ℚ) (scaler : MinMaxScaler)
    (sequence_length : ℕ) :
    ℕ → List ℚ → List ℚ → Option (List ℚ)
  | 0, _, predictions => some predictions
  | n + 1, cur, predictions =>
    match adjust_sequence sequence_length cur with
    | none => none
    | some cur' =>
      let next_scaled := model cur'
      let next_price := scaler.inverse_transform next_scaled
      predict_future_loop model scaler sequence_length n
        (cur'.drop 1 ++ [next_scaled]) (predictions ++ [next_price])

/-- `StockPredictor.predict_future(last_sequence, scaler, days)`
(`lstm_model.py:68-98`).  `days` is an integer; `range(days)` is empty for
`days ≤ 0`.  `none` models the `IndexError` raised when an empty buffer is
left-padded. -/
def predict_future (model : List ℚ → ℚ) (scaler : MinMaxScaler)
    (last_sequence : List ℚ) (sequence_length : ℕ) (days : ℤ) :
    Option (List ℚ) :=
  predict_future_loop model scaler sequence_length days.toNat last_sequence []

/-- How a forecast run can fail: the `raise ValueError("No future predictions
generated")` of `routes/main.py:214-215` when the forecaster returned zero
values (the spec's `EmptyForecastError`), or the `IndexError` escaping
`predict_future` itself. -/
inductive ForecastError where
  | emptyForecast
  | indexError
deriving DecidableEq

/-- The forecast step of the `predict` route (`routes/main.py:206-215`): call
`predict_future` and fail with the spec's `EmptyForecastError` when it
produced no values. -/
def forecast_future (model : List ℚ → ℚ) (scaler : MinMaxScaler)
    (last_sequence : List ℚ) (sequence_length : ℕ) (days : ℤ) :
    Except ForecastError (List ℚ) :=
  match predict_future model scaler last_sequence sequence_length days with
  | none => .error .indexError
  | some predictions =>
    if predictions.length = 0 then .error .emptyForecast
    else .ok predictions

/-- The rolling buffer actually fed to the regressor at step `t` of the
rollout started from `last_sequence`: the adjusted initial buffer at step 0,
and afterwards the slide of the previous fed buffer, re-adjusted at the head
of the next iteration.  (`.getD []` stands for the crashed case, which the
rollout theorems exclude.) -/
def buffer_at (model : List ℚ → ℚ) (sequence_length : ℕ)
    (last_sequence : List ℚ) : ℕ → List ℚ
  | 0 => (adjust_sequence sequence_length last_sequence).getD []
  | t + 1 =>
    let b := buffer_at model sequence_length last_sequence t
    (adjust_sequence sequence_length (b.drop 1 ++ [model b])).getD []

/-! ### `validate_and_clean_data` (`data_processor.py:126-169`) -/

/-- One raw OHLCV row keyed by its date (dates modelled as integers; only
their order matters to the source). -/
structure RawRow where
  date : ℤ
  open_ : FVal
  high : FVal
  low : FVal
  close : FVal
  volume : FVal
deriving DecidableEq

/-- `value > 0` as numpy evaluates it on a float cell: false for NaN and
-inf, true for +inf. -/
def FVal.gtZero : FVal → Bool
  | .fin x => if 0 < x then true else false
  | .posinf => true
  | _ => false

/-- `value >= 0` as numpy evaluates it on a float cell. -/
def FVal.geZero : FVal → Bool
  | .fin x => if 0 ≤ x then true else false
  | .posinf => true
  | _ => false

/-- The row filters of `data_processor.py:142-159`, in source order:
`dropna(subset=essential_columns)`, then positivity of Open, High, Low and
Close, then non-negativity of Volume.  (All five essential columns are
present in a fetched frame, so `available_columns` is the full list.) -/
def filterValidRows (rows : List RawRow) : List RawRow :=
  let d1 := rows.filter (fun r =>
    !(r.open_.isnan || r.high.isnan || r.low.isnan || r.close.isnan ||
      r.volume.isnan))
  let d2 := d1.filter (fun r => r.open_.gtZero)
  let d3 := d2.filter (fun r => r.high.gtZero)
  let d4 := d3.filter (fun r => r.low.gtZero)
  let d5 := d4.filter (fun r => r.close.gtZero)
  d5.filter (fun r => r.volume.geZero)

/-- The single error `validate_and_clean_data` can raise: the empty-input
check of `data_processor.py:139-140`. -/
inductive CleanError where
  | emptyData
deriving DecidableEq

/-- `validate_and_clean_data(stock_data)` (`data_processor.py:126-169`):
reject empty input, drop NaN rows, enforce positivity/non-negativity, and
`sort_index()` ascending by date.  The library sort is modelled by insertion
sort; the source fixes no order among equal dates. -/
def validate_and_clean_data (stock_data : List RawRow) :
    Except CleanError (List RawRow) :=
  if stock_data.isEmpty then .error .emptyData
  else .ok (List.insertionSort (fun a b => a.date ≤ b.date)
    (filterValidRows stock_data))

/-! ### `create_chart_data` (`routes/main.py:17-102`) -/

/-- The chart payload built for the frontend (`routes/main.py:72-79`).
Labels are the already-formatted date strings. -/
structure ChartData where
  labels : List String
  prices : List ℚ
  name : String
  min_price : ℚ
  max_price : ℚ
  avg_price : ℚ
deriving DecidableEq

/-- The fixed synthetic fallback payload of `routes/main.py:93-100`. -/
def fallback_chart_data (name : String) : ChartData :=
  { labels := ["2025-01-01", "2025-01-02", "2025-01-03"]
    prices := [100, 102, 101]
    name := name ++ " (Error)"
    min_price := 100
    max_price := 102
    avg_price := 101 }

/-- `min(l)` of a non-empty Python list. -/
def listMin (l : List ℚ) : ℚ := l.foldl min l.headI

/-- `max(l)` of a non-empty Python list. -/
def listMax (l : List ℚ) : ℚ := l.foldl max l.headI

/-- `create_chart_data(dates, prices, name)` (`routes/main.py:17-102`).
`none` inputs model Python `None`; a `none` price entry models a value
`float()` cannot convert (replaced by `0.0` at `routes/main.py:64-69`, not an
error).  Dates arrive as their formatted strings.  Every failure path — `None`
inputs or empty arrays — lands in the `except` block, which returns the
synthetic fallback payload instead of propagating the error. -/
def create_chart_data (dates : Option (List String))
    (prices : Option (List (Option ℚ))) (name : String) : ChartData :=
  match dates, prices with
  | none, _ => fallback_chart_data name
  | _, none => fallback_chart_data name
  | some dates_list, some prices_list =>
    if dates_list.length = 0 || prices_list.length = 0 then
      fallback_chart_data name
    else
      let m := min dates_list.length prices_list.length
      let dl := if dates_list.length ≠ prices_list.length
                then dates_list.take m else dates_list
      let pl := if dates_list.length ≠ prices_list.length
                then prices_list.take m else prices_list
      let formatted_prices := pl.map (fun p => p.getD 0)
      { labels := dl
        prices := formatted_prices
        name := name
        min_price := if formatted_prices.isEmpty then 0
                     else listMin formatted_prices
        max_price := if formatted_prices.isEmpty then 0
                     else listMax formatted_prices
        avg_price := if formatted_prices.isEmpty then 0
                     else formatted_prices.sum / formatted_prices.length }

/-! ## Helper lemmas -/

/-- A `filterMap` whose function never rejects is a `map`. -/
theorem filterMap_eq_map_of_forall {α β : Type} {l : List α} {f : α → Option β}
    {g : α → β} (h : ∀ a ∈ l, f a = some (g a)) : l.filterMap f = l.map g := by
  induction l with
  | nil => rfl
  | cons a l ih =>
    rw [List.filterMap_cons, h a (by simp), List.map_cons,
      ih (fun a ha => h a (by simp [ha]))]

/-- On all-finite data, the non-finite filter of `create_sequences` rejects
nothing: the windows are exactly the slices `data[i-S:i]` and the targets the
values `data[i]`, for `i = S .. L-1`. -/
theorem create_sequences_of_finite (data : List FVal) (S : ℕ)
    (hfin : ∀ v ∈ data, v.isFinite = true) (hlen : S < data.length) :
    create_sequences data S =
      ((List.range' S (data.length - S)).map
        (fun i => (data.drop (i - S)).take S),
       (List.range' S (data.length - S)).map (fun i => data.getD i (.fin 0))) := by
  have hfalse : ∀ i, ((data.drop (i - S)).take S).any FVal.isnan = false ∧
      ((data.drop (i - S)).take S).any FVal.isinf = false := by
    intro i
    constructor <;>
    · rw [List.any_eq_false]
      intro v hv
      have hvd : v ∈ data := List.drop_subset _ _ (List.take_subset _ _ hv)
      have := hfin v hvd
      cases v <;> simp_all [FVal.isnan, FVal.isinf, FVal.isFinite]
  have hmap : (List.range' S (data.length - S)).filterMap
      (fun i =>
        let sequence := (data.drop (i - S)).take S
        let target := data.getD i (.fin 0)
        if sequence.any FVal.isnan || sequence.any FVal.isinf then none
        else some (sequence, target)) =
      (List.range' S (data.length - S)).map
        (fun i => ((data.drop (i - S)).take S, data.getD i (.fin 0))) := by
    apply filterMap_eq_map_of_forall
    intro i _
    simp only [(hfalse i).1, (hfalse i).2, Bool.or_self, Bool.false_eq_true,
      if_false]
  unfold create_sequences
  rw [if_neg (by omega)]
  simp only [hmap, List.map_map]
  rfl

/-- The window count on all-finite data: `L - S` windows (also correct, as the
truncated subtraction 0, when `L ≤ S`). -/
theorem create_sequences_length_of_finite (data : List FVal) (S : ℕ)
    (hfin : ∀ v ∈ data, v.isFinite = true) :
    (create_sequences data S).1.length = data.length - S := by
  rcases le_or_lt data.length S with h | h
  · unfold create_sequences
    rw [if_pos h]
    simp
    omega
  · rw [create_sequences_of_finite data S hfin h]
    simp

/-! ## Claims -/

/-- Claim C1: for every scaled (hence all-finite) series of length `L` and
every `sequence_length` `S`, if `L > S` then `create_sequences` produces
exactly `L - S` window/target pairs, the `i`-th window being
`series[i-S : i]` with target `series[i]` for `i = S .. L-1`; if `L ≤ S` it
produces an empty result, not an error. -/
theorem c1_windowing_count (data : List FVal) (S : ℕ)
    (hfin : ∀ v ∈ data, v.isFinite = true) :
    (S < data.length →
      (create_sequences data S).1.length = data.length - S ∧
      (create_sequences data S).1 =
        (List.range' S (data.length - S)).map
          (fun i => (data.drop (i - S)).take S) ∧
      (create_sequences data S).2 =
        (List.range' S (data.length - S)).map
          (fun i => data.getD i (.fin 0))) ∧
    (data.length ≤ S → create_sequences data S = ([], [])) := by
  constructor
  · intro hlen
    refine ⟨create_sequences_length_of_finite data S hfin, ?_, ?_⟩ <;>
      rw [create_sequences_of_finite data S hfin hlen]
  · intro hlen
    unfold create_sequences
    rw [if_pos hlen]

/-- Witness for C1 at the finite series `[1, 2, 3]` with `S = 1`. -/
theorem c1_windowing_count_witness :
    (∀ v ∈ [FVal.fin 1, FVal.fin 2, FVal.fin 3], v.isFinite = true) ∧
    1 < [FVal.fin 1, FVal.fin 2, FVal.fin 3].length ∧
    (create_sequences [FVal.fin 1, FVal.fin 2, FVal.fin 3] 1).1.length =
      [FVal.fin 1, FVal.fin 2, FVal.fin 3].length - 1 :=
  ⟨by decide, by decide,
    ((c1_windowing_count [FVal.fin 1, FVal.fin 2, FVal.fin 3] 1
      (by decide)).1 (by decide)).1⟩

/-- The effective range divisor of a fitted scaler is never zero: a zero
range is replaced by 1. -/
theorem handled_range_ne_zero (s : MinMaxScaler) : s.handled_range ≠ 0 := by
  unfold MinMaxScaler.handled_range
  split
  · norm_num
  · assumption

/-- `scale_` is never zero, so `inverse_transform` always undoes
`transform` exactly over the rationals. -/
theorem scale_ne_zero (s : MinMaxScaler) : s.scale_ ≠ 0 :=
  one_div_ne_zero (handled_range_ne_zero s)

/-- Counterexample to C3's constant-series conjunct: a scaler fitted on the
constant series `[100, 100]` maps the input 101 to 1, not to 0.  (sklearn's
`MinMaxScaler` replaces the zero range by 1, so `transform p = p - min`.) -/
theorem c3_roundtrip_counterexample :
    (MinMaxScaler.fit [100, 100]).transform 101 = 1 ∧ (1 : ℚ) ≠ 0 := by
  constructor
  · norm_num [MinMaxScaler.fit, MinMaxScaler.transform, MinMaxScaler.scale_,
      MinMaxScaler.min_, MinMaxScaler.handled_range]
  · norm_num

/-- Claim C3 (amended): for every price `p` in the fitted range of a
non-constant fitted scaler, `inverse(transform(p)) = p` exactly (hence within
`1e-6` relative tolerance); for a constant fitted series (`max = min`),
`transform` returns `input - min` — 0.0 exactly on the fitted constant value,
but not for every input. -/
theorem c3_roundtrip_amended (s : MinMaxScaler) (p : ℚ) :
    (s.data_min ≤ p → p ≤ s.data_max →
      s.inverse_transform (s.transform p) = p) ∧
    (s.data_max = s.data_min → s.transform p = p - s.data_min) := by
  constructor
  · intro _ _
    unfold MinMaxScaler.inverse_transform MinMaxScaler.transform
    rw [add_sub_cancel_right, mul_div_assoc,
      div_self (scale_ne_zero s), mul_one]
  · intro h
    unfold MinMaxScaler.transform MinMaxScaler.scale_ MinMaxScaler.min_
      MinMaxScaler.scale_ MinMaxScaler.handled_range
    rw [h, sub_self, if_pos rfl]
    ring

/-- Witness for C3 (amended): the scaler fitted range `[0, 2]` round-trips
`p = 1`; a constant scaler at 3 maps 5 to `5 - 3`. -/
theorem c3_roundtrip_amended_witness :
    ((⟨0, 2⟩ : MinMaxScaler).data_min ≤ 1 ∧
      (1 : ℚ) ≤ (⟨0, 2⟩ : MinMaxScaler).data_max) ∧
    (⟨0, 2⟩ : MinMaxScaler).inverse_transform
      ((⟨0, 2⟩ : MinMaxScaler).transform 1) = 1 ∧
    ((⟨3, 3⟩ : MinMaxScaler).data_max = (⟨3, 3⟩ : MinMaxScaler).data_min) ∧
    (⟨3, 3⟩ : MinMaxScaler).transform 5 = 5 - (⟨3, 3⟩ : MinMaxScaler).data_min :=
  ⟨⟨by norm_num, by norm_num⟩,
    (c3_roundtrip_amended ⟨0, 2⟩ 1).1 (by norm_num) (by norm_num),
    rfl,
    (c3_roundtrip_amended ⟨3, 3⟩ 5).2 rfl⟩

/-- A buffer already of the target length passes the adjustment unchanged. -/
theorem adjust_of_length_eq (S : ℕ) (cur : List ℚ) (h : cur.length = S) :
    adjust_sequence S cur = some cur := by
  unfold adjust_sequence
  rw [if_neg (by omega), if_neg (by omega)]

/-- For a positive target length and a non-empty buffer, the adjustment
succeeds and produces a buffer of exactly the target length: the last `S`
entries of a long buffer, a left-pad by the first element of a short buffer,
and the identity at the exact length. -/
theorem adjust_spec (S : ℕ) (hS : 0 < S) (cur : List ℚ) (hc : cur ≠ []) :
    ∃ cur', adjust_sequence S cur = some cur' ∧ cur'.length = S ∧
      (cur.length < S →
        cur' = List.replicate (S - cur.length) cur.headI ++ cur) ∧
      (cur.length = S → cur' = cur) ∧
      (S < cur.length → cur' = cur.drop (cur.length - S)) := by
  match cur, hc with
  | h0 :: rest, _ =>
    rcases lt_trichotomy S (h0 :: rest).length with h1 | h1 | h1
    · refine ⟨(h0 :: rest).drop ((h0 :: rest).length - S), ?_, ?_,
        fun h2 => absurd h2 (by omega), fun h2 => absurd h2 (by omega),
        fun _ => rfl⟩
      · unfold adjust_sequence
        rw [if_pos h1, if_neg (by omega)]
      · rw [List.length_drop]
        omega
    · exact ⟨h0 :: rest, adjust_of_length_eq S _ h1.symm, h1.symm,
        fun h2 => absurd h2 (by omega), fun _ => rfl,
        fun h2 => absurd h2 (by omega)⟩
    · refine ⟨List.replicate (S - (h0 :: rest).length) h0 ++ (h0 :: rest),
        ?_, ?_, fun _ => by simp, fun h2 => absurd h2 (by omega),
        fun h2 => absurd h2 (by omega)⟩
      · unfold adjust_sequence
        rw [if_neg (by omega), if_pos h1]
      · rw [List.length_append, List.length_replicate]
        omega

/-- Every buffer fed to the regressor during the rollout has exactly the
model's `sequence_length`. -/
theorem buffer_at_length (model : List ℚ → ℚ) (S : ℕ) (ls : List ℚ)
    (hS : 0 < S) (hls : ls ≠ []) (t : ℕ) :
    (buffer_at model S ls t).length = S := by
  induction t with
  | zero =>
    obtain ⟨c', hc', hlen, -⟩ := adjust_spec S hS ls hls
    simp [buffer_at, hc', hlen]
  | succ t ih =>
    have hne : buffer_at model S ls t ≠ [] :=
      List.ne_nil_of_length_pos (by omega)
    have hlen2 : ((buffer_at model S ls t).drop 1 ++
        [model (buffer_at model S ls t)]).length = S := by
      simp [List.length_drop]
      omega
    show ((adjust_sequence S ((buffer_at model S ls t).drop 1 ++
        [model (buffer_at model S ls t)])).getD []).length = S
    rw [adjust_of_length_eq S _ hlen2]
    exact hlen2

/-- Each rollout step slides the fed buffer: drop its oldest element, append
the model's newest normalized output. -/
theorem buffer_at_slide (model : List ℚ → ℚ) (S : ℕ) (ls : List ℚ)
    (hS : 0 < S) (hls : ls ≠ []) (t : ℕ) :
    buffer_at model S ls (t + 1) =
      (buffer_at model S ls t).drop 1 ++ [model (buffer_at model S ls t)] := by
  have hlen2 : ((buffer_at model S ls t).drop 1 ++
      [model (buffer_at model S ls t)]).length = S := by
    have := buffer_at_length model S ls hS hls t
    simp [List.length_drop]
    omega
  show (adjust_sequence S ((buffer_at model S ls t).drop 1 ++
      [model (buffer_at model S ls t)])).getD [] = _
  rw [adjust_of_length_eq S _ hlen2]
  rfl

/-- Restarting the buffer trace from the buffer after one slide shifts the
trace by one step. -/
theorem buffer_at_shift (model : List ℚ → ℚ) (S : ℕ) (ls : List ℚ)
    (hS : 0 < S) (hls : ls ≠ []) (t : ℕ) :
    buffer_at model S ls (t + 1) =
      buffer_at model S ((buffer_at model S ls 0).drop 1 ++
        [model (buffer_at model S ls 0)]) t := by
  induction t with
  | zero =>
    have h0 := buffer_at_length model S ls hS hls 0
    have hlen : ((buffer_at model S ls 0).drop 1 ++
        [model (buffer_at model S ls 0)]).length = S := by
      simp [List.length_drop]
      omega
    rw [buffer_at_slide model S ls hS hls 0]
    show _ = (adjust_sequence S _).getD []
    rw [adjust_of_length_eq S _ hlen]
    rfl
  | succ t ih =>
    show (adjust_sequence S ((buffer_at model S ls (t + 1)).drop 1 ++
        [model (buffer_at model S ls (t + 1))])).getD [] = _
    rw [ih]
    rfl

/-- Closed form of the `predict_future` loop: for a positive
`sequence_length` and a non-empty initial buffer it never crashes, and its
output is the inverse-transformed regressor output on the fed buffer of each
step. -/
theorem predict_future_loop_eq (model : List ℚ → ℚ) (scaler : MinMaxScaler)
    (S : ℕ) (hS : 0 < S) :
    ∀ (n : ℕ) (cur preds : List ℚ), cur ≠ [] →
      predict_future_loop model scaler S n cur preds =
        some (preds ++ (List.range n).map
          (fun t => scaler.inverse_transform (model (buffer_at model S cur t)))) := by
  intro n
  induction n with
  | zero =>
    intro cur preds _
    simp [predict_future_loop]
  | succ n ih =>
    intro cur preds hc
    obtain ⟨c', hc', hclen, -⟩ := adjust_spec S hS cur hc
    have hb0 : buffer_at model S cur 0 = c' := by
      simp [buffer_at, hc']
    have hcur2 : (c'.drop 1 ++ [model c']) ≠ [] := by simp
    rw [predict_future_loop, hc']
    simp only []
    rw [ih (c'.drop 1 ++ [model c']) _ hcur2]
    congr 1
    rw [List.range_succ_eq_map, List.map_cons, List.map_map]
    have hmaps : (List.range n).map
        ((fun t => scaler.inverse_transform (model (buffer_at model S cur t))) ∘
          Nat.succ) =
        (List.range n).map
          (fun t => scaler.inverse_transform
            (model (buffer_at model S (c'.drop 1 ++ [model c']) t))) := by
      apply List.map_congr_left
      intro t _
      have := buffer_at_shift model S cur hS hc t
      rw [hb0] at this
      simp [Function.comp, Nat.succ_eq_add_one, this]
    rw [hmaps, hb0]
    simp

/-- Claim C5: for every horizon `H` (with the pipeline's guarantees on the
model: positive `sequence_length` and a non-empty last window), the forecast
step returns exactly `H` prices for `H > 0`, and fails with the spec's
`EmptyForecastError` for `H ≤ 0`; it never silently returns fewer than `H`
values. -/
theorem c5_forecast_length (model : List ℚ → ℚ) (scaler : MinMaxScaler)
    (ls : List ℚ) (S : ℕ) (H : ℤ) (hS : 0 < S) (hls : ls ≠ []) :
    (0 < H → ∃ preds, forecast_future model scaler ls S H = .ok preds ∧
      (preds.length : ℤ) = H) ∧
    (H ≤ 0 → forecast_future model scaler ls S H = .error .emptyForecast) := by
  have hpf : predict_future model scaler ls S H =
      some ((List.range H.toNat).map
        (fun t => scaler.inverse_transform (model (buffer_at model S ls t)))) := by
    unfold predict_future
    rw [predict_future_loop_eq model scaler S hS H.toNat ls [] hls]
    simp
  constructor
  · intro hH
    have hne : H.toNat ≠ 0 := by omega
    refine ⟨(List.range H.toNat).map
        (fun t => scaler.inverse_transform (model (buffer_at model S ls t))),
      ?_, ?_⟩
    · simp [forecast_future, hpf, hne]
    · simp
      omega
  · intro hH
    have h0 : H.toNat = 0 := by omega
    simp [forecast_future, hpf, h0]

/-- Witness for C5 at `S = 1`, `ls = [0]`, `H = 3`. -/
theorem c5_forecast_length_witness :
    (0 : ℕ) < 1 ∧ ([0] : List ℚ) ≠ [] ∧ (0 : ℤ) < 3 ∧
    ∃ preds, forecast_future (fun _ => 0) ⟨0, 1⟩ [0] 1 3 = .ok preds ∧
      (preds.length : ℤ) = 3 :=
  ⟨by norm_num, by simp, by norm_num,
    (c5_forecast_length (fun _ => 0) ⟨0, 1⟩ [0] 1 3 (by norm_num)
      (by simp)).1 (by norm_num)⟩

/-- Claim C6: during every step of the rollout the buffer fed to the
regressor has length exactly `sequence_length`; each step slides the buffer
by dropping its oldest element and appending the step's new normalized
prediction (so step `t+1` is conditioned on the model's own output at step
`t`); and an initial window shorter than `sequence_length` is left-padded by
repeating its first element. -/
theorem c6_rollout_invariant (model : List ℚ → ℚ) (scaler : MinMaxScaler)
    (ls : List ℚ) (S : ℕ) (H : ℤ) (hS : 0 < S) (hls : ls ≠ []) :
    predict_future model scaler ls S H =
      some ((List.range H.toNat).map
        (fun t => scaler.inverse_transform (model (buffer_at model S ls t)))) ∧
    (∀ t, (buffer_at model S ls t).length = S) ∧
    (∀ t, buffer_at model S ls (t + 1) =
      (buffer_at model S ls t).drop 1 ++ [model (buffer_at model S ls t)]) ∧
    (ls.length < S →
      buffer_at model S ls 0 = List.replicate (S - ls.length) ls.headI ++ ls) := by
  refine ⟨?_, buffer_at_length model S ls hS hls,
    buffer_at_slide model S ls hS hls, ?_⟩
  · unfold predict_future
    rw [predict_future_loop_eq model scaler S hS H.toNat ls [] hls]
    simp
  · intro hshort
    obtain ⟨c', hc', -, hpad, -, -⟩ := adjust_spec S hS ls hls
    simp [buffer_at, hc', hpad hshort]

/-- Witness for C6 at `S = 2`, `ls = [5]` (exercising the padding branch),
`H = 1`. -/
theorem c6_rollout_invariant_witness :
    (0 : ℕ) < 2 ∧ ([5] : List ℚ) ≠ [] ∧
    ([5] : List ℚ).length < 2 ∧
    predict_future (fun _ => 0) ⟨0, 1⟩ [5] 2 1 =
      some ((List.range (1 : ℤ).toNat).map
        (fun t => (⟨0, 1⟩ : MinMaxScaler).inverse_transform
          ((fun _ => (0 : ℚ)) (buffer_at (fun _ => 0) 2 [5] t)))) ∧
    (buffer_at (fun _ => (0 : ℚ)) 2 [5] 1).length = 2 ∧
    buffer_at (fun _ => (0 : ℚ)) 2 [5] 0 =
      List.replicate (2 - ([5] : List ℚ).length) ([5] : List ℚ).headI ++ [5] := by
  have h := c6_rollout_invariant (fun _ => 0) ⟨0, 1⟩ [5] 2 1
    (by norm_num) (by simp)
  exact ⟨by norm_num, by simp, by simp, h.1, h.2.1 1, h.2.2.2 (by simp)⟩

/-- A scaler fitted on a constant series has effective range 1 (sklearn's
zero-range guard). -/
theorem handled_range_const (s : MinMaxScaler) (hc : s.data_max = s.data_min) :
    s.handled_range = 1 := by
  unfold MinMaxScaler.handled_range
  rw [hc, sub_self, if_pos rfl]

/-- On a constant-fitted scaler, `inverse_transform` adds `data_min` to its
input (it does not collapse to `data_min`). -/
theorem inverse_const (s : MinMaxScaler) (hc : s.data_max = s.data_min)
    (y : ℚ) : s.inverse_transform y = y + s.data_min := by
  unfold MinMaxScaler.inverse_transform MinMaxScaler.min_ MinMaxScaler.scale_
  rw [handled_range_const s hc]
  norm_num

/-- Folding `min` over a constant list is the constant. -/
theorem foldl_min_const (c : ℚ) : ∀ n, (List.replicate n c).foldl min c = c
  | 0 => rfl
  | n + 1 => by
    rw [List.replicate_succ, List.foldl_cons, min_self]
    exact foldl_min_const c n

/-- Folding `max` over a constant list is the constant. -/
theorem foldl_max_const (c : ℚ) : ∀ n, (List.replicate n c).foldl max c = c
  | 0 => rfl
  | n + 1 => by
    rw [List.replicate_succ, List.foldl_cons, max_self]
    exact foldl_max_const c n

/-- Fitting on a constant non-empty series records that constant as both
bounds. -/
theorem fit_replicate (n : ℕ) (c : ℚ) :
    MinMaxScaler.fit (List.replicate (n + 1) c) = ⟨c, c⟩ := by
  unfold MinMaxScaler.fit
  rw [List.replicate_succ]
  simp only [List.headI, List.foldl_cons, min_self, max_self,
    foldl_min_const, foldl_max_const]

/-- `dropna` keeps every row of a constant all-finite frame. -/
theorem cleanedOf_replicate_fin (n : ℕ) (x : ℚ) :
    cleanedOf (List.replicate n ⟨.fin x, false⟩) =
      List.replicate n ⟨.fin x, false⟩ := by
  unfold cleanedOf dropnaRows
  rw [List.filter_replicate]
  rfl

/-- The repaired price column of a constant all-finite frame. -/
theorem pricesQOf_replicate_fin (n : ℕ) (x : ℚ) :
    pricesQOf (List.replicate n ⟨.fin x, false⟩) = List.replicate n x := by
  unfold pricesQOf cleanedPricesOf
  rw [cleanedOf_replicate_fin, List.map_replicate]
  simp only [List.any_replicate, FVal.isnan, FVal.isinf, ite_self,
    Bool.or_self, Bool.false_eq_true, if_false, List.map_replicate, FVal.toRat]

/-- The scaler fitted on a constant frame at `x`. -/
theorem scalerOf_replicate_fin (n : ℕ) (x : ℚ) :
    scalerOf (List.replicate (n + 1) ⟨.fin x, false⟩) = ⟨x, x⟩ := by
  unfold scalerOf
  rw [pricesQOf_replicate_fin, fit_replicate]

/-- A constant series scales to the all-zero normalized series. -/
theorem scaledOf_replicate_fin (n : ℕ) (x : ℚ) :
    scaledOf (List.replicate (n + 1) ⟨.fin x, false⟩) =
      List.replicate (n + 1) (.fin 0) := by
  unfold scaledOf
  rw [pricesQOf_replicate_fin, scalerOf_replicate_fin, List.map_replicate]
  have ht : (⟨x, x⟩ : MinMaxScaler).transform x = 0 := by
    unfold MinMaxScaler.transform MinMaxScaler.min_ MinMaxScaler.scale_
    rw [handled_range_const ⟨x, x⟩ rfl]
    ring
  rw [ht]

/-- Counterexample to C4: the pipeline on a perfectly flat series (`close`
constant at 100.0 for 100 days, `sequence_length` 60) fits the scaler
`⟨100, 100⟩` and hands the forecaster the all-zero last window, but a
regressor whose normalized output is 1 yields the forecast value 101, not
100: the forecast is not independent of the regressor output. -/
theorem c4_flat_series_counterexample :
    scalerOf (List.replicate 100 (⟨.fin 100, false⟩ : PriceRow)) = ⟨100, 100⟩ ∧
    (last_sequence_of
        (scaledOf (List.replicate 100 (⟨.fin 100, false⟩ : PriceRow))) 60).map
      FVal.toRat = List.replicate 60 0 ∧
    predict_future (fun _ => 1) ⟨100, 100⟩ (List.replicate 60 0) 60 1 =
      some [101] ∧
    (101 : ℚ) ≠ 100 := by
  refine ⟨scalerOf_replicate_fin 99 100, ?_, ?_, by norm_num⟩
  · rw [show (100 : ℕ) = 99 + 1 from rfl, scaledOf_replicate_fin 99 100]
    unfold last_sequence_of
    rw [if_neg (by norm_num), List.length_replicate, List.drop_replicate,
      List.map_replicate]
    norm_num [FVal.toRat]
  · unfold predict_future
    rw [predict_future_loop_eq (fun _ => 1) ⟨100, 100⟩ 60 (by norm_num)
      (Int.toNat 1) (List.replicate 60 0) [] (by simp)]
    have hr : List.range (Int.toNat 1) = [0] := rfl
    simp only [hr, List.map_cons, List.map_nil, List.nil_append]
    rw [inverse_const ⟨100, 100⟩ rfl]
    norm_num

/-- Claim C4 (amended): for a scaler fitted on a constant series
(`max = min`), `inverse_transform` returns `input + min` (not `min`);
consequently on a perfectly flat series each forecast value equals the
regressor's normalized output at that step plus the constant price — it is
100.0 only when the regressor outputs exactly 0, not regardless of the
regressor output. -/
theorem c4_flat_series_amended (s : MinMaxScaler)
    (hc : s.data_max = s.data_min) :
    (∀ y, s.inverse_transform y = y + s.data_min) ∧
    (∀ (model : List ℚ → ℚ) (ls : List ℚ) (S : ℕ) (H : ℤ),
      0 < S → ls ≠ [] →
      predict_future model s ls S H =
        some ((List.range H.toNat).map
          (fun t => model (buffer_at model S ls t) + s.data_min))) := by
  refine ⟨inverse_const s hc, ?_⟩
  intro model ls S H hS hls
  unfold predict_future
  rw [predict_future_loop_eq model s S hS H.toNat ls [] hls]
  simp only [List.nil_append, Option.some.injEq]
  apply List.map_congr_left
  intro t _
  exact inverse_const s hc _

/-- Witness for C4 (amended) at the constant scaler `⟨7, 7⟩`. -/
theorem c4_flat_series_amended_witness :
    (⟨7, 7⟩ : MinMaxScaler).data_max = (⟨7, 7⟩ : MinMaxScaler).data_min ∧
    (⟨7, 7⟩ : MinMaxScaler).inverse_transform 1 =
      1 + (⟨7, 7⟩ : MinMaxScaler).data_min ∧
    (0 : ℕ) < 1 ∧ ([2] : List ℚ) ≠ [] ∧
    predict_future (fun _ => 0) ⟨7, 7⟩ [2] 1 2 =
      some ((List.range (2 : ℤ).toNat).map
        (fun t => (fun _ => (0 : ℚ)) (buffer_at (fun _ => 0) 1 [2] t) +
          (⟨7, 7⟩ : MinMaxScaler).data_min)) :=
  ⟨rfl, (c4_flat_series_amended ⟨7, 7⟩ rfl).1 1, by norm_num, by simp,
    (c4_flat_series_amended ⟨7, 7⟩ rfl).2 (fun _ => 0) [2] 1 2
      (by norm_num) (by simp)⟩

/-- Scaling preserves the cleaned row count. -/
theorem scaledOf_length (rows : List PriceRow) :
    (scaledOf rows).length = (cleanedOf rows).length := by
  unfold scaledOf pricesQOf cleanedPricesOf
  rw [List.length_map, List.length_map]
  show (if (((cleanedOf rows).map (fun r => r.close)).any FVal.isnan ||
        ((cleanedOf rows).map (fun r => r.close)).any FVal.isinf) = true
      then ((cleanedOf rows).map (fun r => r.close)).map nan_to_num
      else (cleanedOf rows).map (fun r => r.close)).length =
    (cleanedOf rows).length
  split <;> simp

/-- Every value of the scaled series is finite: the scaled series is built by
applying `transform` to exact rationals. -/
theorem scaledOf_finite (rows : List PriceRow) :
    ∀ v ∈ scaledOf rows, v.isFinite = true := by
  intro v hv
  unfold scaledOf at hv
  obtain ⟨x, -, rfl⟩ := List.mem_map.mp hv
  rfl

/-- The training prefix never exceeds the window count. -/
theorem train_size_le (n : ℕ) (h : 1 ≤ n) : train_size_of n ≤ n := by
  unfold train_size_of
  have h45 : 4 * n / 5 ≤ 4 * n / 4 :=
    Nat.div_le_div_left (by norm_num) (by norm_num)
  have h44 : 4 * n / 4 = n := Nat.mul_div_cancel_left n (by norm_num)
  omega

/-- With at least `sequence_length + 10` cleaned rows, `prepare_data` passes
every guard and returns the windowed, split and scaled payload. -/
theorem prepare_data_eq_ok (rows : List PriceRow) (S : ℕ)
    (h10 : S + 10 ≤ (cleanedOf rows).length) :
    prepare_data rows S = .ok
      { X_train := (splitTrainTest (create_sequences (scaledOf rows) S).1).1
        y_train := (create_sequences (scaledOf rows) S).2.take
          (train_size_of (create_sequences (scaledOf rows) S).1.length)
        X_test := (splitTrainTest (create_sequences (scaledOf rows) S).1).2
        scaler := scalerOf rows
        last_sequence := last_sequence_of (scaledOf rows) S } := by
  have hcount : (create_sequences (scaledOf rows) S).1.length =
      (cleanedOf rows).length - S := by
    rw [create_sequences_length_of_finite _ S (scaledOf_finite rows),
      scaledOf_length]
  have hrowsne : rows.isEmpty = false := by
    have : rows ≠ [] := by
      intro hnil
      rw [hnil, show cleanedOf [] = [] from rfl] at h10
      simp at h10
    simp [List.isEmpty_iff, this]
  have hXne : (create_sequences (scaledOf rows) S).1 ≠ [] := by
    intro hnil
    have h0 : (create_sequences (scaledOf rows) S).1.length = 0 := by
      rw [hnil]
      rfl
    rw [hcount] at h0
    omega
  have hXemp : (create_sequences (scaledOf rows) S).1.isEmpty = false := by
    simp [List.isEmpty_iff, hXne]
  have hX1 : 1 ≤ (create_sequences (scaledOf rows) S).1.length := by
    have := List.length_pos.mpr hXne
    omega
  have hTne : (splitTrainTest (create_sequences (scaledOf rows) S).1).1 ≠ [] := by
    apply List.ne_nil_of_length_pos
    unfold splitTrainTest
    rw [List.length_take]
    have := train_size_le (create_sequences (scaledOf rows) S).1.length hX1
    unfold train_size_of at *
    omega
  have hTemp : (splitTrainTest
      (create_sequences (scaledOf rows) S).1).1.isEmpty = false := by
    simp [List.isEmpty_iff, hTne]
  have hlt : ¬((cleanedOf rows).length < S + 10) := by omega
  unfold prepare_data
  simp only [hrowsne, Bool.false_eq_true, if_false, hlt, hXemp, hTemp]

/-- `getD` on a constant list with the constant as default is the constant. -/
theorem getD_replicate_self (a : FVal) :
    ∀ (n i : ℕ), (List.replicate n a).getD i a = a
  | 0, _ => rfl
  | _ + 1, 0 => rfl
  | n + 1, i + 1 => by
    rw [List.replicate_succ, List.getD_cons_succ]
    exact getD_replicate_self a n i

/-- Full evaluation of `prepare_data` on 12 rows of constant finite close 0
with `sequence_length = 1`: 11 windows, an 8/3 split, the constant scaler,
and a one-element last window. -/
theorem sample_prepare_eval :
    prepare_data (List.replicate 12 ⟨.fin 0, false⟩) 1 =
      .ok ⟨List.replicate 8 [.fin 0], List.replicate 8 (.fin 0),
        List.replicate 3 [.fin 0], ⟨0, 0⟩, [.fin 0]⟩ := by
  have hclean := cleanedOf_replicate_fin 12 (0 : ℚ)
  have hscaled : scaledOf (List.replicate 12 (⟨FVal.fin 0, false⟩ : PriceRow)) =
      List.replicate 12 (FVal.fin 0) := scaledOf_replicate_fin 11 0
  have hscaler : scalerOf (List.replicate 12 (⟨FVal.fin 0, false⟩ : PriceRow)) =
      ⟨0, 0⟩ := scalerOf_replicate_fin 11 0
  have hfin : ∀ v ∈ List.replicate 12 (FVal.fin 0), v.isFinite = true := by
    intro v hv
    rw [List.eq_of_mem_replicate hv]
    rfl
  have hseq : create_sequences (List.replicate 12 (FVal.fin 0)) 1 =
      (List.replicate 11 [FVal.fin 0], List.replicate 11 (FVal.fin 0)) := by
    rw [create_sequences_of_finite _ 1 hfin (by simp)]
    simp only [List.length_replicate]
    norm_num [List.range', List.drop_replicate, List.take_replicate,
      getD_replicate_self, List.replicate]
  rw [prepare_data_eq_ok _ 1 (by rw [hclean]; simp)]
  rw [hscaled, hscaler, hseq]
  norm_num [splitTrainTest, train_size_of, last_sequence_of,
    List.take_replicate, List.drop_replicate, List.replicate]

/-- Claim C2: for every window set produced inside a successful
`prepare_data` run, training is the positional prefix of
`max(1, ⌊0.8·n⌋)` windows, test is the positional suffix (empty when
`n = 1`), and their concatenation restores the original window order with
nothing shuffled, duplicated or dropped. -/
theorem c2_split_order (rows : List PriceRow) (S : ℕ) (out : PrepResult)
    (h : prepare_data rows S = .ok out) :
    out.X_train = ((create_sequences (scaledOf rows) S).1).take
      (max 1 (4 * (create_sequences (scaledOf rows) S).1.length / 5)) ∧
    out.X_test = ((create_sequences (scaledOf rows) S).1).drop
      (max 1 (4 * (create_sequences (scaledOf rows) S).1.length / 5)) ∧
    out.X_train ++ out.X_test = (create_sequences (scaledOf rows) S).1 ∧
    out.X_train.length =
      max 1 (4 * (create_sequences (scaledOf rows) S).1.length / 5) ∧
    out.X_train ≠ [] ∧
    ((create_sequences (scaledOf rows) S).1.length = 1 → out.X_test = []) := by
  by_cases hemp : rows.isEmpty = true
  · rw [prepare_data, if_pos hemp] at h
    exact absurd h (by simp)
  by_cases hlt : (cleanedOf rows).length < S + 10
  · rw [prepare_data, if_neg hemp, if_pos hlt] at h
    exact absurd h (by simp)
  have h10 : S + 10 ≤ (cleanedOf rows).length := by omega
  rw [prepare_data_eq_ok rows S h10] at h
  have hrec := (Except.ok.injEq _ _).mp h
  subst hrec
  have hcount : (create_sequences (scaledOf rows) S).1.length =
      (cleanedOf rows).length - S := by
    rw [create_sequences_length_of_finite _ S (scaledOf_finite rows),
      scaledOf_length]
  have hn1 : 1 ≤ (create_sequences (scaledOf rows) S).1.length := by omega
  have hts := train_size_le (create_sequences (scaledOf rows) S).1.length hn1
  have hdrop : (splitTrainTest (create_sequences (scaledOf rows) S).1).2 =
      ((create_sequences (scaledOf rows) S).1).drop
        (train_size_of (create_sequences (scaledOf rows) S).1.length) := by
    unfold splitTrainTest
    split
    · rfl
    · rw [List.drop_eq_nil_of_le (by omega)]
  refine ⟨rfl, hdrop, ?_, ?_, ?_, ?_⟩
  · rw [hdrop]
    exact List.take_append_drop _ _
  · show ((create_sequences (scaledOf rows) S).1.take
        (train_size_of (create_sequences (scaledOf rows) S).1.length)).length = _
    rw [List.length_take]
    exact min_eq_left hts
  · apply List.ne_nil_of_length_pos
    show 0 < ((create_sequences (scaledOf rows) S).1.take
        (train_size_of (create_sequences (scaledOf rows) S).1.length)).length
    rw [List.length_take]
    unfold train_size_of
    omega
  · intro h1
    rw [hdrop, h1]
    apply List.drop_eq_nil_of_le
    rw [h1]
    unfold train_size_of
    omega

/-- Witness for C2 on the 12-row constant sample with `S = 1`: 11 windows
split 8/3, concatenating back to the full window list. -/
theorem c2_split_order_witness :
    prepare_data (List.replicate 12 ⟨.fin 0, false⟩) 1 =
      .ok ⟨List.replicate 8 [.fin 0], List.replicate 8 (.fin 0),
        List.replicate 3 [.fin 0], ⟨0, 0⟩, [.fin 0]⟩ ∧
    List.replicate 8 [FVal.fin 0] ++ List.replicate 3 [FVal.fin 0] =
      (create_sequences (scaledOf (List.replicate 12 ⟨.fin 0, false⟩)) 1).1 :=
  ⟨sample_prepare_eval,
    (c2_split_order (List.replicate 12 ⟨.fin 0, false⟩) 1 _
      sample_prepare_eval).2.2.1⟩

/-- Claim C7: `prepare_data` fails — always with an insufficient-data error —
exactly when fewer than `sequence_length + 10` rows remain after cleaning or
zero valid windows exist after filtering; with at least
`sequence_length + 10` cleaned rows it succeeds with a non-empty training
set. -/
theorem c7_insufficient_iff (rows : List PriceRow) (S : ℕ) :
    ((∃ e, prepare_data rows S = .error e ∧ e.isInsufficient = true) ↔
      ((cleanedOf rows).length < S + 10 ∨
        (create_sequences (scaledOf rows) S).1.length = 0)) ∧
    (S + 10 ≤ (cleanedOf rows).length →
      ∃ out, prepare_data rows S = .ok out ∧ out.X_train ≠ []) := by
  by_cases hlt : (cleanedOf rows).length < S + 10
  · constructor
    · constructor
      · intro _
        exact Or.inl hlt
      · intro _
        by_cases hemp : rows.isEmpty = true
        · exact ⟨.emptyInput, by rw [prepare_data, if_pos hemp], rfl⟩
        · exact ⟨.insufficientRows,
            by rw [prepare_data, if_neg hemp, if_pos hlt], rfl⟩
    · intro habs
      omega
  · have h10 : S + 10 ≤ (cleanedOf rows).length := by omega
    have hok := prepare_data_eq_ok rows S h10
    have hcount : (create_sequences (scaledOf rows) S).1.length =
        (cleanedOf rows).length - S := by
      rw [create_sequences_length_of_finite _ S (scaledOf_finite rows),
        scaledOf_length]
    have hn1 : 1 ≤ (create_sequences (scaledOf rows) S).1.length := by omega
    constructor
    · constructor
      · rintro ⟨e, he, -⟩
        rw [hok] at he
        exact absurd he (by simp)
      · intro hor
        rcases hor with hcase | hcase
        · omega
        · omega
    · intro _
      refine ⟨_, hok, ?_⟩
      show (splitTrainTest (create_sequences (scaledOf rows) S).1).1 ≠ []
      apply List.ne_nil_of_length_pos
      unfold splitTrainTest
      rw [List.length_take]
      have := train_size_le (create_sequences (scaledOf rows) S).1.length hn1
      unfold train_size_of at *
      omega

/-- Witness for C7 on the 12-row constant sample with `S = 1`. -/
theorem c7_insufficient_iff_witness :
    1 + 10 ≤ (cleanedOf (List.replicate 12 ⟨.fin 0, false⟩)).length ∧
    ∃ out, prepare_data (List.replicate 12 ⟨.fin 0, false⟩) 1 = .ok out ∧
      out.X_train ≠ [] := by
  have hle : 1 + 10 ≤ (cleanedOf (List.replicate 12 ⟨.fin 0, false⟩)).length := by
    rw [cleanedOf_replicate_fin]
    simp
  exact ⟨hle,
    (c7_insufficient_iff (List.replicate 12 ⟨.fin 0, false⟩) 1).2 hle⟩

/-- Claim C10: on every input accepted by `prepare_data`, the scaled series
handed to windowing is entirely finite (missing rows dropped, remaining
NaN, +inf and -inf repaired to 0, float64-max and 0 before scaling), so the
non-finite-window filter in `create_sequences` removes nothing and the window
count is exactly series length minus `sequence_length` (and positive). -/
theorem c10_scaled_all_finite (rows : List PriceRow) (S : ℕ) (out : PrepResult)
    (h : prepare_data rows S = .ok out) :
    (∀ v ∈ scaledOf rows, v.isFinite = true) ∧
    nan_to_num .nan = .fin 0 ∧
    nan_to_num .posinf = .fin float64Max ∧
    nan_to_num .neginf = .fin 0 ∧
    (create_sequences (scaledOf rows) S).1.length =
      (scaledOf rows).length - S ∧
    S < (scaledOf rows).length := by
  refine ⟨scaledOf_finite rows, rfl, rfl, rfl,
    create_sequences_length_of_finite _ S (scaledOf_finite rows), ?_⟩
  by_cases hemp : rows.isEmpty = true
  · rw [prepare_data, if_pos hemp] at h
    exact absurd h (by simp)
  by_cases hlt : (cleanedOf rows).length < S + 10
  · rw [prepare_data, if_neg hemp, if_pos hlt] at h
    exact absurd h (by simp)
  rw [scaledOf_length]
  omega

/-- Witness for C10 on the 12-row constant sample with `S = 1`. -/
theorem c10_scaled_all_finite_witness :
    prepare_data (List.replicate 12 ⟨.fin 0, false⟩) 1 =
      .ok ⟨List.replicate 8 [.fin 0], List.replicate 8 (.fin 0),
        List.replicate 3 [.fin 0], ⟨0, 0⟩, [.fin 0]⟩ ∧
    (create_sequences (scaledOf (List.replicate 12 ⟨.fin 0, false⟩)) 1).1.length =
      (scaledOf (List.replicate 12 ⟨.fin 0, false⟩)).length - 1 ∧
    1 < (scaledOf (List.replicate 12 ⟨.fin 0, false⟩)).length :=
  ⟨sample_prepare_eval,
    (c10_scaled_all_finite (List.replicate 12 ⟨.fin 0, false⟩) 1 _
      sample_prepare_eval).2.2.2.2.1,
    (c10_scaled_all_finite (List.replicate 12 ⟨.fin 0, false⟩) 1 _
      sample_prepare_eval).2.2.2.2.2⟩

/-- Counterexample to C8: two valid rows sharing date 5 pass
`validate_and_clean_data` untouched — the function returns them both (no
`MalformedSeriesError`, no merge) even though duplicate dates remain after
the sort. -/
theorem c8_duplicate_dates_counterexample :
    validate_and_clean_data
        [⟨5, .fin 1, .fin 1, .fin 1, .fin 1, .fin 0⟩,
         ⟨5, .fin 2, .fin 2, .fin 2, .fin 2, .fin 0⟩] =
      .ok [⟨5, .fin 1, .fin 1, .fin 1, .fin 1, .fin 0⟩,
           ⟨5, .fin 2, .fin 2, .fin 2, .fin 2, .fin 0⟩] ∧
    (⟨5, .fin 1, .fin 1, .fin 1, .fin 1, .fin 0⟩ : RawRow).date =
      (⟨5, .fin 2, .fin 2, .fin 2, .fin 2, .fin 0⟩ : RawRow).date ∧
    (⟨5, .fin 1, .fin 1, .fin 1, .fin 1, .fin 0⟩ : RawRow) ≠
      ⟨5, .fin 2, .fin 2, .fin 2, .fin 2, .fin 0⟩ := by
  refine ⟨?_, rfl, by decide⟩
  norm_num [validate_and_clean_data, filterValidRows, FVal.isnan,
    FVal.gtZero, FVal.geZero, List.filter, List.insertionSort,
    List.orderedInsert]

/-- Claim C8 (amended): the Series Sanitizer sorts the surviving rows
ascending by date but performs no duplicate-date check: it always succeeds on
non-empty input, returning a permutation of the filtered rows sorted by date
— duplicate-dated rows are silently kept, never rejected with
`MalformedSeriesError`. -/
theorem c8_sort_no_duplicate_check (rows : List RawRow) (h : rows ≠ []) :
    validate_and_clean_data rows =
      .ok (List.insertionSort (fun a b => a.date ≤ b.date)
        (filterValidRows rows)) ∧
    (List.insertionSort (fun a b => a.date ≤ b.date)
      (filterValidRows rows)).Perm (filterValidRows rows) ∧
    List.Sorted (fun a b => a.date ≤ b.date)
      (List.insertionSort (fun a b => a.date ≤ b.date)
        (filterValidRows rows)) := by
  refine ⟨?_, List.perm_insertionSort _ _, ?_⟩
  · unfold validate_and_clean_data
    rw [if_neg (by simp [List.isEmpty_iff, h])]
  · haveI : IsTotal RawRow (fun a b => a.date ≤ b.date) :=
      ⟨fun a b => le_total a.date b.date⟩
    haveI : IsTrans RawRow (fun a b => a.date ≤ b.date) :=
      ⟨fun _ _ _ hab hbc => le_trans hab hbc⟩
    exact List.sorted_insertionSort _ _

/-- Witness for C8 (amended) on a one-row frame. -/
theorem c8_sort_no_duplicate_check_witness :
    ([⟨1, .fin 1, .fin 1, .fin 1, .fin 1, .fin 0⟩] : List RawRow) ≠ [] ∧
    validate_and_clean_data [⟨1, .fin 1, .fin 1, .fin 1, .fin 1, .fin 0⟩] =
      .ok (List.insertionSort (fun a b => a.date ≤ b.date)
        (filterValidRows [⟨1, .fin 1, .fin 1, .fin 1, .fin 1, .fin 0⟩])) :=
  ⟨by simp,
    (c8_sort_no_duplicate_check
      [⟨1, .fin 1, .fin 1, .fin 1, .fin 1, .fin 0⟩] (by simp)).1⟩

/-- Claim C9: on every failing formatting input — `None` dates or prices, or
empty arrays — `create_chart_data` propagates nothing: it returns the fixed
synthetic placeholder chart (labels 2025-01-01 through 2025-01-03, prices
100.0/102.0/101.0, name suffixed " (Error)") shaped like a normal chart
payload. -/
theorem c9_chart_fallback (dates : Option (List String))
    (prices : Option (List (Option ℚ))) (name : String)
    (h : dates = none ∨ prices = none ∨ dates = some [] ∨ prices = some []) :
    create_chart_data dates prices name = fallback_chart_data name ∧
    (fallback_chart_data name).labels =
      ["2025-01-01", "2025-01-02", "2025-01-03"] ∧
    (fallback_chart_data name).prices = [100, 102, 101] ∧
    (fallback_chart_data name).name = name ++ " (Error)" := by
  refine ⟨?_, rfl, rfl, rfl⟩
  rcases h with h | h | h | h
  · subst h
    cases prices <;> rfl
  · subst h
    cases dates <;> rfl
  · subst h
    cases prices with
    | none => rfl
    | some pl => simp [create_chart_data]
  · subst h
    cases dates with
    | none => rfl
    | some dl => simp [create_chart_data]

/-- Witness for C9 at `None` dates. -/
theorem c9_chart_fallback_witness :
    ((none : Option (List String)) = none ∨
      (none : Option (List (Option ℚ))) = none ∨
      (none : Option (List String)) = some [] ∨
      (none : Option (List (Option ℚ))) = some []) ∧
    create_chart_data none none "Historical Prices" =
      fallback_chart_data "Historical Prices" :=
  ⟨Or.inl rfl,
    (c9_chart_fallback none none "Historical Prices" (Or.inl rfl)).1⟩

end StockPred
